import Mathlib

/-!
Verification of the tiddler synchronization store of `pywebview-tw`.

The development shallowly embeds the two SQLite-backed implementations of the
store found in the repository:

* `src/api/flask_server.py` (`WikiFlaskServer`): a table with one typed column
  per wire field (`title, bag, created, ..., revision, tags, text, type, uri,
  fields`).  The table is modelled as an association list from titles to `Row`
  values; `REPLACE INTO` on the primary key is modelled by removing any row
  with the same title and appending the new one (SQLite's `REPLACE` deletes
  the conflicting row and inserts afresh).

* `src/api/tiddler_store.py` (`TiddlerStore`): a two-column table
  `(title, tiddler_data JSON)` plus a `wiki_metadata` table holding the
  `last_html_save` marker.  The JSON blob is modelled by the one field the
  sync queries inspect (`json_extract(tiddler_data, '$.modified')`); the
  metadata table is modelled by an optional timestamp.

String comparison performed by SQLite (`BINARY` collation, a byte-wise
`memcmp` on UTF-8, which orders valid UTF-8 exactly like code points) is
modelled by `charListLt` on the character lists of Lean strings, because the
built-in `String` order does not reduce in the kernel.  Python dictionaries
are modelled by association lists with an insert-or-overwrite operation.
-/

/-! ## Generic helpers: SQLite string order, Python `str.replace` -/

/-- Byte-wise lexicographic strict order used by SQLite's `BINARY` collation,
on character lists (for valid UTF-8, byte order and code-point order agree).
A strict prefix is smaller. -/
def charListLt : List Char → List Char → Bool
  | [], [] => false
  | [], _ :: _ => true
  | _ :: _, [] => false
  | a :: as, b :: bs =>
    if a.toNat < b.toNat then true
    else if b.toNat < a.toNat then false
    else charListLt as bs

/-- `a` is strictly smaller than `b` under SQLite `BINARY` collation. -/
def strLtB (a b : String) : Bool := charListLt a.data b.data

/-- Python `s.replace(c, rep)` for the single-character pattern used at the
call site (`"Z"`): every occurrence of the character is replaced. -/
def replaceChar (cs : List Char) (c : Char) (rep : List Char) : List Char :=
  match cs with
  | [] => []
  | x :: rest =>
    if x = c then rep ++ replaceChar rest c rep
    else x :: replaceChar rest c rep

/-- `title NOT LIKE '$:/%'` / `title.startswith("$:/")`: the reserved
system-entry marker test. -/
def isSystemTitle (t : String) : Bool := "$:/".data.isPrefixOf t.data

/-! ## Tag normalization (`WikiFlaskServer._convert_tags_to_string`) -/

/-- The possible Python values of the incoming `tags` entry, other than
`None`: a string, a list (elements represented by their `str()` rendering,
which the code applies to each element), or any other value represented by
its `str()` rendering. -/
inductive TagsValue where
  | str (s : String)
  | list (tags : List String)
  | other (s : String)
deriving DecidableEq

/-- `WikiFlaskServer._convert_tags_to_string` (flask_server.py lines 84-113):
`None` is returned unchanged; a string is returned as-is; a list is joined
with single spaces, each element wrapped in `[[...]]` when it contains a
space character (`" " in tag_str`); any other value becomes its `str()`
rendering. -/
def convertTagsToString : Option TagsValue → Option String
  | none => none
  | some (TagsValue.str s) => some s
  | some (TagsValue.list ts) =>
      some (String.intercalate " "
        (ts.map (fun tag => if tag.data.contains ' ' then "[[" ++ tag ++ "]]" else tag)))
  | some (TagsValue.other s) => some s

/-- Re-inject the result of `_convert_tags_to_string` as a Python value, for
composing the function with itself: `None` stays `None`, a string is a
string. -/
def tagsResultAsValue : Option String → Option TagsValue
  | none => none
  | some s => some (TagsValue.str s)

/-- Spec-side rendering of one tag ("any tag containing whitespace is wrapped
in double-square-bracket delimiters"): wrap when the tag contains ANY
whitespace character. -/
def specTagRendering (tag : String) : String :=
  if tag.data.any Char.isWhitespace then "[[" ++ tag ++ "]]" else tag

/-- Spec-side canonical wire string for a tag list: tags joined by single
spaces, wrapping every tag that contains any whitespace character. -/
def specTagsString (ts : List String) : String :=
  String.intercalate " " (ts.map specTagRendering)

/-! ## The `WikiFlaskServer` tiddlers table -/

/-- One row of the flask server's `tiddlers` table (flask_server.py lines
59-78).  Every column except the primary key is nullable.  The `fields`
column holds a JSON-encoded extension-fields object; it is modelled by its
decoded content (`json.dumps`/`json.loads` round-trip modelled as the
identity on flat string dictionaries), with `none` standing for SQL `NULL`
and for content that does not decode to an object. -/
structure Row where
  bag : Option String
  created : Option String
  creator : Option String
  modified : Option String
  modifier : Option String
  permissions : Option String
  recipe : Option String
  revision : Option Int
  tags : Option String
  text : Option String
  type : Option String
  uri : Option String
  fields : Option (List (String × String))
deriving DecidableEq

/-- The flask server's table: an association list keyed by `title`
(primary key). -/
def ServerState := List (String × Row)

instance : DecidableEq ServerState := inferInstanceAs (DecidableEq (List (String × Row)))

/-- `REPLACE INTO tiddlers ... VALUES ...`: SQLite deletes any row conflicting
on the primary key and inserts the new row. -/
def sqlReplace (rows : ServerState) (title : String) (r : Row) : ServerState :=
  rows.filter (fun p => !(p.1 == title)) ++ [(title, r)]

/-- `WikiFlaskServer._get_current_revision` (flask_server.py lines 171-186):
the `revision` column of the row with this title, or `0` when the row is
absent or the column is `NULL`. -/
def getCurrentRevision (rows : ServerState) (title : String) : Int :=
  match List.lookup title rows with
  | some r =>
    match r.revision with
    | some v => v
    | none => 0
  | none => 0

/-- The incoming tiddler JSON body as decoded by `request.get_json()`: the
keys `_put_tiddler` reads via `tiddler_data.get(...)`.  `tags` may be a
string, a list, or another value (`TagsValue`); `fields` is modelled by its
decoded object form as in `Row`. -/
structure TiddlerData where
  bag : Option String
  created : Option String
  creator : Option String
  modified : Option String
  modifier : Option String
  permissions : Option String
  recipe : Option String
  revision : Option Int
  tags : Option TagsValue
  text : Option String
  type : Option String
  uri : Option String
  fields : Option (List (String × String))
deriving DecidableEq

/-- The row written by `WikiFlaskServer._put_tiddler` for a given new
revision: every column is taken from the incoming data, except `revision`
(the store-assigned value; the incoming `revision` key is never read) and
`tags` (normalized by `_convert_tags_to_string`). -/
def putRow (d : TiddlerData) (newRevision : Int) : Row :=
  { bag := d.bag
    created := d.created
    creator := d.creator
    modified := d.modified
    modifier := d.modifier
    permissions := d.permissions
    recipe := d.recipe
    revision := some newRevision
    tags := convertTagsToString d.tags
    text := d.text
    type := d.type
    uri := d.uri
    fields := d.fields }

/-- `WikiFlaskServer._put_tiddler` (flask_server.py lines 257-323): reads the
current revision, increments it, normalizes `tags`, `REPLACE`s the row and
returns the new revision. -/
def flaskPutTiddler (rows : ServerState) (title : String) (d : TiddlerData) :
    Int × ServerState :=
  let newRevision := getCurrentRevision rows title + 1
  (newRevision, sqlReplace rows title (putRow d newRevision))

/-- The revisions returned by a sequence of `_put_tiddler` calls on one
title, in call order. -/
def putSequenceRevisions (rows : ServerState) (title : String) :
    List TiddlerData → List Int
  | [] => []
  | d :: ds =>
    let step := flaskPutTiddler rows title d
    step.1 :: putSequenceRevisions step.2 title ds

/-- `WikiFlaskServer._delete_tiddler` (flask_server.py lines 325-334):
`DELETE FROM tiddlers WHERE title = ?`. -/
def flaskDeleteTiddler (rows : ServerState) (title : String) : ServerState :=
  rows.filter (fun p => !(p.1 == title))

/-- The `DELETE /bags/default/tiddlers/<title>` route (flask_server.py lines
411-426): delete the row (no error if it does not exist) and always answer
HTTP status 204. -/
def flaskDeleteRoute (rows : ServerState) (title : String) : Nat × ServerState :=
  (204, flaskDeleteTiddler rows title)

/-! ## ISO → TiddlyWiki timestamp conversion
(`TiddlerStore._iso_to_tiddlywiki_timestamp`)

The conversion calls `datetime.fromisoformat` and `strftime`.  The model
below follows CPython 3.11's C accelerator (`_datetime`), which is what the
repository runs; its behaviour was validated case by case against that
implementation: extended (`YYYY-MM-DD`), basic (`YYYYMMDD`) and ISO week
(`YYYY-Www[-D]`, `YYYYWww[D]`) dates, any single character as the date-time
separator, extended and basic times with fractions of any length introduced
by `.` or `,` (or, after complete components, by `:` or nothing), UTC
offsets `±HH[:MM[:SS[.ffffff]]]` and `±HHMM`, a single stray character
immediately before an offset sign being ignored, and range validation
performed at `datetime` construction.  `%Y` does NOT zero-pad years below
1000 on POSIX, so the formatted result has 14 to 17 digits. -/

/-- Value of a list of decimal digit characters. -/
def digitsVal (cs : List Char) : Nat :=
  cs.foldl (fun n c => n * 10 + (c.toNat - 48)) 0

/-- Gregorian leap year, as `datetime` implements it. -/
def isLeapYear (y : Nat) : Bool :=
  (y % 4 == 0 && y % 100 != 0) || (y % 400 == 0)

/-- Days in a month, as validated by `datetime`. -/
def daysInMonth (y m : Nat) : Nat :=
  if m = 2 then (if isLeapYear y then 29 else 28)
  else if m = 4 ∨ m = 6 ∨ m = 9 ∨ m = 11 then 30
  else 31

/-- Read exactly `n` decimal digits from the front of the input. -/
def takeDigits (n : Nat) (cs : List Char) : Option (Nat × List Char) :=
  let pre := cs.take n
  if pre.length = n ∧ pre.all Char.isDigit then some (digitsVal pre, cs.drop n)
  else none

/-- Character at index `i`, with the C NUL sentinel for out-of-range
reads. -/
def charAt (cs : List Char) (i : Nat) : Char := cs.getD i (Char.ofNat 0)

/-- The fields of a Python `datetime` object that
`_iso_to_tiddlywiki_timestamp` formats (`strftime` prints the stored wall
clock fields; a parsed UTC offset does not change them). -/
structure PyDateTime where
  year : Nat
  month : Nat
  day : Nat
  hour : Nat
  minute : Nat
  second : Nat
  microsecond : Nat
deriving DecidableEq

/-- `datetime._days_before_year`: days in the proleptic Gregorian calendar
before January 1st of `y`. -/
def daysBeforeYear (y : Nat) : Nat :=
  (y - 1) * 365 + (y - 1) / 4 - (y - 1) / 100 + (y - 1) / 400

/-- `datetime._DAYS_BEFORE_MONTH` (index `m`), plus the leap-day correction
for months after February. -/
def daysBeforeMonth (y m : Nat) : Nat :=
  [0, 0, 31, 59, 90, 120, 151, 181, 212, 243, 273, 304, 334].getD m 0 +
    (if 2 < m ∧ isLeapYear y then 1 else 0)

/-- `datetime._ymd2ord`: proleptic Gregorian ordinal of a date. -/
def ymd2ord (y m d : Nat) : Nat := daysBeforeYear y + daysBeforeMonth y m + d

/-- `datetime._ord2ymd`: date from a proleptic Gregorian ordinal, by the
400/100/4/1-year cycle decomposition used by CPython. -/
def ord2ymd (ordinal : Nat) : Nat × Nat × Nat :=
  let n := ordinal - 1
  let n400 := n / 146097
  let r400 := n % 146097
  let n100 := r400 / 36524
  let r100 := r400 % 36524
  let n4 := r100 / 1461
  let r4 := r100 % 1461
  let n1 := r4 / 365
  let n := r4 % 365
  let year := n400 * 400 + 1 + n100 * 100 + n4 * 4 + n1
  if n1 = 4 ∨ n100 = 4 then (year - 1, 12, 31)
  else
    let leap := n1 = 3 ∧ (n4 ≠ 24 ∨ n100 = 3)
    let month := (n + 50) / 32
    let preceding :=
      [0, 0, 31, 59, 90, 120, 151, 181, 212, 243, 273, 304, 334].getD month 0 +
        (if 2 < month ∧ leap then 1 else 0)
    if n < preceding then
      let month2 := month - 1
      let preceding2 := preceding -
        ([0, 31, 28, 31, 30, 31, 30, 31, 31, 30, 31, 30, 31].getD month2 0 +
          (if month2 = 2 ∧ leap then 1 else 0))
      (year, month2, n - preceding2 + 1)
    else (year, month, n - preceding + 1)

/-- `datetime._isoweek1monday`: ordinal of the Monday of ISO week 1. -/
def isoweek1monday (y : Nat) : Nat :=
  let firstday := ymd2ord y 1 1
  let firstweekday := (firstday + 6) % 7
  let week1monday := firstday - firstweekday
  if 3 < firstweekday then week1monday + 7 else week1monday

/-- `datetime._isoweek_to_gregorian`: week number validation (53 only for
years starting Thursday, or leap years starting Wednesday), day-of-week
validation, then ordinal arithmetic. -/
def isoweekToGregorian (y w d : Nat) : Option (Nat × Nat × Nat) :=
  if 1 ≤ y ∧ y ≤ 9999 then
    let firstweekday := ymd2ord y 1 1 % 7
    if (1 ≤ w ∧ w ≤ 52) ∨
        (w = 53 ∧ (firstweekday = 4 ∨ (firstweekday = 3 ∧ isLeapYear y))) then
      if 1 ≤ d ∧ d ≤ 7 then
        some (ord2ymd (isoweek1monday y + 7 * (w - 1) + (d - 1)))
      else none
    else none
  else none

/-- The range validation performed by the `datetime` constructor on the
parsed components (`MINYEAR = 1`, `MAXYEAR = 9999`). -/
def mkDateTime (y m d hh mm ss us : Nat) : Option PyDateTime :=
  if 1 ≤ y ∧ y ≤ 9999 ∧ 1 ≤ m ∧ m ≤ 12 ∧ 1 ≤ d ∧ d ≤ daysInMonth y m ∧
      hh ≤ 23 ∧ mm ≤ 59 ∧ ss ≤ 59 ∧ us ≤ 999999 then
    some ⟨y, m, d, hh, mm, ss, us⟩
  else none

/-- `_find_isoformat_datetime_separator`: index where the date part ends
(the following character, whatever it is, separates date and time); `none`
models the raises inside the finder. -/
def findDatetimeSeparator (cs : List Char) : Option Nat :=
  let len := cs.length
  if len = 7 then some 7
  else if charAt cs 4 = '-' then
    if charAt cs 5 = 'W' then
      if len < 8 then none
      else if 8 < len ∧ charAt cs 8 = '-' then
        if len = 9 then none
        else if 10 < len ∧ (charAt cs 10).isDigit then some 8
        else some 10
      else some 8
    else some 10
  else if charAt cs 4 = 'W' then
    let idx := 7 + ((cs.drop 7).takeWhile Char.isDigit).length
    if idx < 9 then some idx
    else if idx % 2 = 0 then some 7 else some 8
  else some 8

/-- `_parse_isoformat_date`: `YYYY-MM-DD` / `YYYYMMDD` / week dates, with
consistent use of the dash separator; range validation is left to the
constructor (week numbers excepted). -/
def parseIsoDate (ds : List Char) : Option (Nat × Nat × Nat) := do
  let (y, _) ← takeDigits 4 ds
  let hasSep := charAt ds 4 == '-'
  let pos := if hasSep then 5 else 4
  if charAt ds pos = 'W' then do
    let (w, _) ← takeDigits 2 (ds.drop (pos + 1))
    let pos2 := pos + 3
    if pos2 < ds.length then
      if ((charAt ds pos2 == '-') == hasSep) then do
        let pos3 := if hasSep then pos2 + 1 else pos2
        let (d, _) ← takeDigits 1 (ds.drop pos3)
        isoweekToGregorian y w d
      else none
    else isoweekToGregorian y w 1
  else do
    let (m, _) ← takeDigits 2 (ds.drop pos)
    if ((charAt ds (pos + 2) == '-') == hasSep) then do
      let pos2 := if hasSep then pos + 3 else pos + 2
      let (d, _) ← takeDigits 2 (ds.drop pos2)
      some (y, m, d)
    else none

/-- Fractional component: up to six digits (the value is scaled to
microseconds), any further characters must all be digits and are
discarded. -/
def parseFraction (rem : List Char) (v0 v1 v2 : Nat) :
    Option (Nat × Nat × Nat × Nat) :=
  let toParse := min rem.length 6
  let front := rem.take toParse
  if front.all Char.isDigit then
    if (rem.drop toParse).all Char.isDigit then
      some (v0, v1, v2, digitsVal front * 10 ^ (6 - toParse))
    else none
  else none

/-- `parse_hh_mm_ss_ff` of the C accelerator: two-digit components in
extended (`:`-separated) or basic form; a component ending exactly at the
end of the slice succeeds; one stray character at the end is ignored when a
timezone sign follows (`tzFollows`) and is an error otherwise; `.` or `,`
starts the fraction, as does anything after three complete components. -/
def parseHMSF (cs : List Char) (tzFollows : Bool) :
    Option (Nat × Nat × Nat × Nat) := do
  let (v0, r0) ← takeDigits 2 cs
  match r0 with
  | [] => some (v0, 0, 0, 0)
  | [_] => if tzFollows then some (v0, 0, 0, 0) else none
  | c :: rest =>
    if c = ':' then do
      let (v1, r1) ← takeDigits 2 rest
      match r1 with
      | [] => some (v0, v1, 0, 0)
      | [_] => if tzFollows then some (v0, v1, 0, 0) else none
      | c1 :: rest1 =>
        if c1 = ':' then do
          let (v2, r2) ← takeDigits 2 rest1
          match r2 with
          | [] => some (v0, v1, v2, 0)
          | [_] => if tzFollows then some (v0, v1, v2, 0) else none
          | c2 :: rest2 =>
            if c2 = ':' ∨ c2 = '.' ∨ c2 = ',' then parseFraction rest2 v0 v1 v2
            else none
        else if c1 = '.' ∨ c1 = ',' then parseFraction rest1 v0 v1 0
        else none
    else if c = '.' ∨ c = ',' then parseFraction rest v0 0 0
    else do
      let (v1, r1) ← takeDigits 2 (c :: rest)
      match r1 with
      | [] => some (v0, v1, 0, 0)
      | [_] => if tzFollows then some (v0, v1, 0, 0) else none
      | c1 :: rest1 =>
        if c1 = ':' then none
        else if c1 = '.' ∨ c1 = ',' then parseFraction rest1 v0 v1 0
        else do
          let (v2, r2) ← takeDigits 2 (c1 :: rest1)
          match r2 with
          | [] => some (v0, v1, v2, 0)
          | [_] => if tzFollows then some (v0, v1, v2, 0) else none
          | c2 :: rest2 =>
            if c2 = '.' ∨ c2 = ',' then parseFraction rest2 v0 v1 v2
            else if c2 = ':' then none
            else parseFraction (c2 :: rest2) v0 v1 v2

/-- Index of the first timezone sign character in the time string. -/
def findTzIndex (cs : List Char) : Option Nat :=
  cs.findIdx? (fun c => c == '+' || c == '-' || c == 'Z')

/-- `parse_isoformat_time`: wall clock up to the first sign character, then
`Z` (which must be final) or a numeric offset whose absolute value must be
strictly below 24 hours; the offset only sets `tzinfo`, which `strftime`
does not print. -/
def parseIsoTime (ts : List Char) : Option (Nat × Nat × Nat × Nat) :=
  match findTzIndex ts with
  | none => parseHMSF ts false
  | some i => do
    let comps ← parseHMSF (ts.take i) true
    let tzstr := ts.drop (i + 1)
    if charAt ts i = 'Z' then
      if tzstr.isEmpty then some comps else none
    else do
      let (th, tm, tss, tus) ← parseHMSF tzstr false
      if ((th * 60 + tm) * 60 + tss) * 1000000 + tus < 86400000000 then
        some comps
      else none

/-- `datetime.fromisoformat` (CPython 3.11 C accelerator): at least seven
characters, a date part located by the separator finder, then, when
anything follows the date, one separator character (any character) and a
mandatory time part; the components are validated by the constructor. -/
def pyFromIso (s : String) : Option PyDateTime :=
  if s.data.length < 7 then none
  else
    match findDatetimeSeparator s.data with
    | none => none
    | some sepLoc =>
      match parseIsoDate (s.data.take sepLoc) with
      | none => none
      | some (y, m, d) =>
        if sepLoc < s.data.length then
          match parseIsoTime (s.data.drop (sepLoc + 1)) with
          | none => none
          | some (hh, mm, ss, us) => mkDateTime y m d hh mm ss us
        else mkDateTime y m d 0 0 0 0

/-- `n` printed as exactly `w` zero-padded decimal digit characters (the
digit of weight `10^i` is `n / 10^i % 10`). -/
def padDigits (w n : Nat) : List Char :=
  (List.range w).reverse.map (fun i => Char.ofNat (48 + n / 10 ^ i % 10))

/-- Plain decimal digit characters of `n`, without padding (structural on a
fuel argument that is always sufficient). -/
def natDigitsAux : Nat → Nat → List Char
  | 0, _ => []
  | fuel + 1, n =>
    if n < 10 then [Char.ofNat (48 + n)]
    else natDigitsAux fuel (n / 10) ++ [Char.ofNat (48 + n % 10)]

/-- Decimal rendering of a natural number, no zero padding — the behaviour
of `%Y` on POSIX for any year value. -/
def natDecimalDigits (n : Nat) : List Char := natDigitsAux (n + 1) n

/-- `dt.strftime("%Y%m%d%H%M%S") + f"{dt.microsecond // 1000:03d}"`: month
through second zero-padded to two digits and the millisecond to three, but
the year printed UNPADDED (`%Y` on POSIX CPython does not zero-pad years
below 1000), so the result has 17 characters only for four-digit years. -/
def formatTwTimestamp (dt : PyDateTime) : String :=
  ⟨natDecimalDigits dt.year ++ padDigits 2 dt.month ++ padDigits 2 dt.day ++
   padDigits 2 dt.hour ++ padDigits 2 dt.minute ++ padDigits 2 dt.second ++
   padDigits 3 (dt.microsecond / 1000)⟩

/-- `TiddlerStore._iso_to_tiddlywiki_timestamp` (tiddler_store.py lines
34-54): replace `"Z"` by `"+00:00"`, parse with `fromisoformat` and format;
on any parse failure (the `except` branch) return the original input
unchanged. -/
def isoToTwTimestamp (s : String) : String :=
  match pyFromIso ⟨replaceChar s.data 'Z' "+00:00".data⟩ with
  | some dt => formatTwTimestamp dt
  | none => s

/-! ## The `TiddlerStore` table and the change-set resolver -/

/-- The stored `tiddler_data` JSON blob, modelled by the one field the sync
queries inspect: `json_extract(tiddler_data, '$.modified')` (`none` when the
blob has no `modified` key, in which case the SQL comparison is `NULL`,
hence false). -/
structure TiddlerJson where
  modified : Option String
deriving DecidableEq

/-- `TiddlerStore` persistent state: the `tiddlers` table (association list
keyed by `title`) and the `last_html_save` row of `wiki_metadata`. -/
structure StoreState where
  tiddlers : List (String × TiddlerJson)
  lastHtmlSave : Option String
deriving DecidableEq

/-- `TiddlerStore.get_last_html_save` (tiddler_store.py lines 118-130). -/
def getLastHtmlSave (s : StoreState) : Option String := s.lastHtmlSave

/-- The dict `{"success": True}` returned by `TiddlerStore.put_tiddler`. -/
structure PutResult where
  success : Bool
deriving DecidableEq

/-- `TiddlerStore.put_tiddler` (tiddler_store.py lines 154-179):
`REPLACE INTO tiddlers (title, tiddler_data) VALUES (?, json(?))` and return
`{"success": True}`.  No validation is performed on the title. -/
def storePutTiddler (s : StoreState) (title : String) (j : TiddlerJson) :
    PutResult × StoreState :=
  ({ success := true },
   { s with tiddlers := s.tiddlers.filter (fun p => !(p.1 == title)) ++ [(title, j)] })

/-- `TiddlerStore.delete_tiddler` (tiddler_store.py lines 181-198):
`DELETE FROM tiddlers WHERE title = ?`; the returned boolean is
`cursor.rowcount > 0`, i.e. whether a row with this title existed. -/
def storeDeleteTiddler (s : StoreState) (title : String) : Bool × StoreState :=
  ((List.lookup title s.tiddlers).isSome,
   { s with tiddlers := s.tiddlers.filter (fun p => !(p.1 == title)) })

/-- `SELECT title FROM tiddlers WHERE title NOT LIKE '$:/%'`. -/
def selectNonSystemTitles (ts : List (String × TiddlerJson)) : List String :=
  (ts.filter (fun p => !(isSystemTitle p.1))).map Prod.fst

/-- `SELECT title FROM tiddlers WHERE json_extract(tiddler_data, '$.modified')
> ? AND title NOT LIKE '$:/%'` (a `NULL` extract compares as false). -/
def selectModifiedAfter (ts : List (String × TiddlerJson)) (baseline : String) :
    List String :=
  (ts.filter (fun p =>
    (match p.2.modified with
     | some m => strLtB baseline m
     | none => false) && !(isSystemTitle p.1))).map Prod.fst

/-- `TiddlerStore._detect_deletions` (tiddler_store.py lines 291-328): with
no live-title list, `[]`; otherwise the live titles, stripped of system
entries, minus the non-system titles present in the table. -/
def detectDeletions (ts : List (String × TiddlerJson))
    (currentTiddlers : Option (List String)) : List String :=
  match currentTiddlers with
  | none => []
  | some cur =>
    let sqliteTiddlers := selectNonSystemTitles ts
    let currentSet := cur.filter (fun t => !(isSystemTitle t))
    currentSet.filter (fun t => !(sqliteTiddlers.contains t))

/-- The result dict of `get_updated_tiddlers`. -/
structure SyncResult where
  modifications : List String
  deletions : List String
deriving DecidableEq

/-- `TiddlerStore.get_updated_tiddlers` (tiddler_store.py lines 200-289).
With no `since_timestamp`: if no HTML save was ever recorded, all non-system
titles are returned and the deletions list is the literal `[]` (the code
returns early without calling `_detect_deletions`); otherwise the save
marker is the baseline.  With a `since_timestamp`, it is first converted by
`_iso_to_tiddlywiki_timestamp`. -/
def getUpdatedTiddlers (s : StoreState) (sinceTimestamp : Option String)
    (currentTiddlers : Option (List String)) : SyncResult :=
  match sinceTimestamp with
  | none =>
    match getLastHtmlSave s with
    | none =>
      { modifications := selectNonSystemTitles s.tiddlers, deletions := [] }
    | some lastHtmlSave =>
      { modifications := selectModifiedAfter s.tiddlers lastHtmlSave
        deletions := detectDeletions s.tiddlers currentTiddlers }
  | some ts =>
    let twTimestamp := isoToTwTimestamp ts
    { modifications := selectModifiedAfter s.tiddlers twTimestamp
      deletions := detectDeletions s.tiddlers currentTiddlers }

/-! ## Spec-side definitions (worded from the specification, for comparison
with the code-side definitions above) -/

/-- Spec: "if `sinceTimestamp` is absent, use the Save Marker as baseline"
(an incoming ISO timestamp is converted to canonical form first; `none` is
"beginning of time"). -/
def specBaseline (sinceTimestamp saveMarker : Option String) : Option String :=
  match sinceTimestamp with
  | some ts => some (isoToTwTimestamp ts)
  | none => saveMarker

/-- Spec: "all non-system titles whose stored `modified` field is strictly
greater (canonical string comparison) than the baseline"; with no baseline,
every non-system title. -/
def specModifiedSet (ts : List (String × TiddlerJson)) (baseline : Option String) :
    List String :=
  match baseline with
  | none => (ts.filter (fun p => !(isSystemTitle p.1))).map Prod.fst
  | some b =>
    (ts.filter (fun p => !(isSystemTitle p.1) &&
      (match p.2.modified with
       | some m => strLtB b m
       | none => false))).map Prod.fst

/-- Spec: "`liveTitles \ (non-system titles currently in the store)`, after
stripping system-prefixed entries from `liveTitles` too"; empty when
`liveTitles` is absent. -/
def specDeletedSet (ts : List (String × TiddlerJson))
    (liveTitles : Option (List String)) : List String :=
  match liveTitles with
  | none => []
  | some live =>
    (live.filter (fun t => !(isSystemTitle t))).filter
      (fun t => !((selectNonSystemTitles ts).contains t))

/-! ## The skinny listing (`WikiFlaskServer._get_all_tiddlers_flat`) -/

/-- A value in a flattened tiddler record: column values are TEXT or INTEGER
(the `revision` column), extension-field values are strings. -/
inductive FlatValue where
  | str (s : String)
  | int (n : Int)
deriving DecidableEq

/-- A Python dict over string keys, as an association list in insertion
order. -/
abbrev PyDict := List (String × FlatValue)

/-- Python `dict[key] = value`: overwrite in place when the key exists,
append otherwise. -/
def dictAssign (m : PyDict) (k : String) (v : FlatValue) : PyDict :=
  if m.any (fun p => p.1 == k) then
    m.map (fun p => if p.1 == k then (k, v) else p)
  else m ++ [(k, v)]

/-- `dict.get`-style lookup. -/
def dictGet (m : PyDict) (k : String) : Option FlatValue := List.lookup k m

/-- Append `(k, column value)` when the column is not `NULL` (the loop body's
`if value is not None`); the keys of the listing's `fields_map` are distinct,
so plain append implements the dict assignment here. -/
def addColumn (m : PyDict) (k : String) : Option String → PyDict
  | none => m
  | some v => m ++ [(k, FlatValue.str v)]

/-- The record dict built from one row by the first loop of
`_get_all_tiddlers_flat`, in `fields_map` order (`text` is not selected;
the `fields` column is held aside for flattening). -/
def rowRecordBase (title : String) (r : Row) : PyDict :=
  let m : PyDict := [("title", FlatValue.str title)]
  let m := addColumn m "bag" r.bag
  let m := addColumn m "created" r.created
  let m := addColumn m "creator" r.creator
  let m := addColumn m "modified" r.modified
  let m := addColumn m "modifier" r.modifier
  let m := addColumn m "permissions" r.permissions
  let m := addColumn m "recipe" r.recipe
  let m := match r.revision with
    | none => m
    | some v => m ++ [("revision", FlatValue.int v)]
  let m := addColumn m "tags" r.tags
  let m := addColumn m "type" r.type
  let m := addColumn m "uri" r.uri
  m

/-- One listing record: the column dict, then every decoded extension field
assigned into it (`tiddler[key] = val` overwrites an existing key). -/
def flattenRow (title : String) (r : Row) : PyDict :=
  let base := rowRecordBase title r
  match r.fields with
  | none => base
  | some fs => fs.foldl (fun m kv => dictAssign m kv.1 (FlatValue.str kv.2)) base

/-- `WikiFlaskServer._get_all_tiddlers_flat` (flask_server.py lines 188-255):
build a record per row, skipping rows whose (truthy) title starts with
`"$:/"`, and flatten the extension fields of the surviving rows. -/
def getAllTiddlersFlat (rows : ServerState) : List PyDict :=
  match rows with
  | [] => []
  | (title, r) :: rest =>
    if !(title == "") && isSystemTitle title then getAllTiddlersFlat rest
    else flattenRow title r :: getAllTiddlersFlat rest

/-! ## Amended-spec definitions and concrete instances -/

/-- Amended rendering of one tag, as the code actually behaves: wrap in
double square brackets exactly when the tag contains a space character
(U+0020), not arbitrary whitespace. -/
def amendedTagRendering (tag : String) : String :=
  if tag.data.contains ' ' then "[[" ++ tag ++ "]]" else tag

/-- Amended canonical wire string for a tag list: joined by single spaces,
wrapping exactly the tags that contain a space character. -/
def amendedTagsString (ts : List String) : String :=
  String.intercalate " " (ts.map amendedTagRendering)

/-- An incoming tiddler body with every key absent. -/
def emptyTiddlerData : TiddlerData :=
  { bag := none, created := none, creator := none, modified := none
    modifier := none, permissions := none, recipe := none, revision := none
    tags := none, text := none, type := none, uri := none, fields := none }

/-- A row with every nullable column `NULL`. -/
def blankRow : Row :=
  { bag := none, created := none, creator := none, modified := none
    modifier := none, permissions := none, recipe := none, revision := none
    tags := none, text := none, type := none, uri := none, fields := none }

/-- A fresh store: no tiddlers, no recorded HTML save. -/
def emptyStore : StoreState := { tiddlers := [], lastHtmlSave := none }

/-- A stored tiddler blob with a `modified` field. -/
def sampleJson : TiddlerJson := { modified := some "20260101000000000" }

/-- A store holding one tiddler and a recorded HTML save older than its
`modified` timestamp. -/
def markedStore : StoreState :=
  { tiddlers := [("Alpha", { modified := some "20260102030405006" })]
    lastHtmlSave := some "20260101000000000" }

/-- A row whose top-level `modifier` column collides with a `modifier` key
inside the `fields` extension object. -/
def collisionRow : Row :=
  { bag := none, created := none, creator := none, modified := none
    modifier := some "alice", permissions := none, recipe := none
    revision := some 1, tags := none, text := none, type := none, uri := none
    fields := some [("modifier", "bob")] }

/-! ## Shared lemmas about association-list tables and Python dicts -/

section TableLemmas

variable {α : Type}

/-- After a `REPLACE`, looking up the replaced key finds the new value. -/
theorem lookup_replace_eq (l : List (String × α)) (t : String) (v : α) :
    List.lookup t (l.filter (fun p => !(p.1 == t)) ++ [(t, v)]) = some v := by
  induction l with
  | nil => simp [List.lookup]
  | cons p rest ih =>
    by_cases hp : p.1 = t
    · simp [List.filter_cons, hp, ih]
    · simp only [List.filter_cons]
      have hb : (p.1 == t) = false := by simp [hp]
      simp only [hb, Bool.not_false, if_pos, List.cons_append, List.lookup]
      have ht : (t == p.1) = false := by simp [Ne.symm hp]
      simp [ht, ih]

/-- After deleting a key, looking it up finds nothing. -/
theorem lookup_remove_eq_none (l : List (String × α)) (t : String) :
    List.lookup t (l.filter (fun p => !(p.1 == t))) = none := by
  induction l with
  | nil => simp [List.lookup]
  | cons p rest ih =>
    by_cases hp : p.1 = t
    · simp [List.filter_cons, hp, ih]
    · have hb : (p.1 == t) = false := by simp [hp]
      have ht : (t == p.1) = false := by simp [Ne.symm hp]
      simp [List.filter_cons, hb, List.lookup, ht, ih]

/-- A key is found in an association list iff some pair carries it. -/
theorem lookup_isSome_iff (l : List (String × α)) (t : String) :
    (List.lookup t l).isSome = true ↔ ∃ v, (t, v) ∈ l := by
  induction l with
  | nil => simp [List.lookup]
  | cons p rest ih =>
    rcases p with ⟨a, b⟩
    by_cases hp : t = a
    · subst hp
      simp [List.lookup]
    · have ht : (t == a) = false := by simp [hp]
      simp only [List.lookup, ht, List.mem_cons, ih]
      constructor
      · rintro ⟨v, hv⟩
        exact ⟨v, Or.inr hv⟩
      · rintro ⟨v, hv | hv⟩
        · cases hv
          exact absurd rfl hp
        · exact ⟨v, hv⟩

/-- Deleting an absent key leaves the table unchanged. -/
theorem filter_remove_of_not_mem (l : List (String × α)) (t : String)
    (h : ∀ v, (t, v) ∉ l) : l.filter (fun p => !(p.1 == t)) = l := by
  apply List.filter_eq_self.mpr
  intro p hp
  rcases p with ⟨a, b⟩
  by_cases ha : a = t
  · subst ha
    exact absurd hp (h b)
  · simp [ha]

/-- Looking up in an appended list: the left list wins when it has the key. -/
theorem lookup_append_assoc (l1 l2 : List (String × α)) (t : String) :
    List.lookup t (l1 ++ l2) =
      match List.lookup t l1 with
      | some v => some v
      | none => List.lookup t l2 := by
  induction l1 with
  | nil => simp [List.lookup]
  | cons p rest ih =>
    rcases p with ⟨a, b⟩
    by_cases hp : t = a
    · subst hp
      simp [List.lookup]
    · have ht : (t == a) = false := by simp [hp]
      simp [List.lookup, ht, ih]

end TableLemmas

/-! ## Lemmas about Python dict assignment -/

/-- Re-assigning an existing key by mapping over the dict yields the new
value on lookup. -/
theorem lookup_mapReplace (m : PyDict) (k : String) (v : FlatValue)
    (h : m.any (fun p => p.1 == k) = true) :
    List.lookup k (m.map (fun p => if p.1 == k then (k, v) else p)) = some v := by
  induction m with
  | nil => simp at h
  | cons p rest ih =>
    rcases p with ⟨a, b⟩
    simp only [List.any_cons] at h
    simp only [List.map_cons]
    split
    next hab =>
      simp [List.lookup]
    next hab =>
      have hb : (a == k) = false := by
        revert hab
        cases a == k <;> simp
      have ht : (k == a) = false := by
        simp only [beq_eq_false_iff_ne] at hb ⊢
        exact Ne.symm hb
      have hrest : rest.any (fun p => p.1 == k) = true := by
        simpa [hb] using h
      simp only [List.lookup, ht]
      exact ih hrest

/-- A key absent from every pair of a dict is not found. -/
theorem lookup_eq_none_of_any_false (m : PyDict) (k : String)
    (h : m.any (fun p => p.1 == k) = false) : List.lookup k m = none := by
  induction m with
  | nil => rfl
  | cons p rest ih =>
    simp only [List.any_cons, Bool.or_eq_false_iff] at h
    have ht : (k == p.1) = false := by
      rcases h with ⟨h1, _⟩
      simp only [beq_eq_false_iff_ne] at h1 ⊢
      exact Ne.symm h1
    simp [List.lookup, ht, ih h.2]

/-- Python `m[k] = v`: looking up `k` afterwards yields `v`. -/
theorem dictGet_assign_same (m : PyDict) (k : String) (v : FlatValue) :
    dictGet (dictAssign m k v) k = some v := by
  unfold dictAssign dictGet
  split
  next h => exact lookup_mapReplace m k v h
  next h =>
    have hf : m.any (fun p => p.1 == k) = false := by
      revert h
      cases m.any (fun p => p.1 == k) <;> simp
    rw [lookup_append_assoc, lookup_eq_none_of_any_false m k hf]
    simp [List.lookup]

/-- Mapping the re-assignment of key `k'` over a dict does not change the
value found at a different key. -/
theorem lookup_map_irrelevant (m : PyDict) (k k' : String) (v : FlatValue)
    (hkk : k ≠ k') :
    List.lookup k (m.map (fun p => if p.1 == k' then (k', v) else p)) =
      List.lookup k m := by
  induction m with
  | nil => rfl
  | cons p rest ih =>
    rcases p with ⟨a, b⟩
    simp only [List.map_cons]
    split
    next hab =>
      have ha : a = k' := by simpa using hab
      have ht : (k == a) = false := by simp [ha, hkk]
      have ht' : (k == k') = false := by simp [hkk]
      simp only [List.lookup, ht, ht']
      exact ih
    next hab =>
      by_cases hka : k = a
      · subst hka
        simp [List.lookup]
      · have ht : (k == a) = false := by simp [hka]
        simp only [List.lookup, ht]
        exact ih

/-- Python `m[k'] = v` does not change the value found at a different key. -/
theorem dictGet_assign_other (m : PyDict) (k k' : String) (v : FlatValue)
    (hkk : k ≠ k') : dictGet (dictAssign m k' v) k = dictGet m k := by
  unfold dictAssign dictGet
  split
  next h => exact lookup_map_irrelevant m k k' v hkk
  next h =>
    rw [lookup_append_assoc]
    have ht : (k == k') = false := by simp [hkk]
    cases hm : List.lookup k m
    · simp [List.lookup, ht]
    · simp

/-- Folding assignments whose keys all differ from `k` leaves the value at
`k` unchanged. -/
theorem dictGet_foldAssign_of_not_mem (fs : List (String × String)) (m : PyDict)
    (k : String) (h : ∀ p ∈ fs, p.1 ≠ k) :
    dictGet (fs.foldl (fun m kv => dictAssign m kv.1 (FlatValue.str kv.2)) m) k =
      dictGet m k := by
  induction fs generalizing m with
  | nil => rfl
  | cons kv rest ih =>
    simp only [List.foldl_cons]
    rw [ih _ (fun p hp => h p (List.mem_cons_of_mem kv hp))]
    exact dictGet_assign_other m k kv.1 (FlatValue.str kv.2)
      (Ne.symm (h kv (List.mem_cons_self kv rest)))

/-- Folding the assignments of a duplicate-free extension-fields object: the
value recorded for a present key is the object's value, whatever the initial
dict held there. -/
theorem dictGet_foldAssign_lookup (fs : List (String × String)) (m : PyDict)
    (k v : String) (hnd : (fs.map Prod.fst).Nodup)
    (hl : List.lookup k fs = some v) :
    dictGet (fs.foldl (fun m kv => dictAssign m kv.1 (FlatValue.str kv.2)) m) k =
      some (FlatValue.str v) := by
  induction fs generalizing m with
  | nil => simp [List.lookup] at hl
  | cons kv rest ih =>
    rcases kv with ⟨k', v'⟩
    simp only [List.map_cons, List.nodup_cons] at hnd
    by_cases hk : k = k'
    · subst hk
      simp only [List.lookup, beq_self_eq_true, if_pos] at hl
      cases hl
      simp only [List.foldl_cons]
      rw [dictGet_foldAssign_of_not_mem rest _ k
        (fun p hp => fun hpk => hnd.1 (hpk ▸ List.mem_map_of_mem Prod.fst hp))]
      exact dictGet_assign_same m k (FlatValue.str v)
    · have ht : (k == k') = false := by simp [hk]
      simp only [List.lookup, ht] at hl
      simp only [List.foldl_cons]
      exact ih _ hnd.2 hl

/-! ## Lemmas about the resolver queries and the timestamp format -/

/-- Every title returned by the all-non-system query is non-system. -/
theorem not_system_of_mem_selectNonSystemTitles
    {ts : List (String × TiddlerJson)} {t : String}
    (h : t ∈ selectNonSystemTitles ts) : isSystemTitle t = false := by
  simp only [selectNonSystemTitles, List.mem_map] at h
  obtain ⟨p, hp, rfl⟩ := h
  have := (List.mem_filter.mp hp).2
  simpa using this

/-- Every title returned by the modified-since query is non-system. -/
theorem not_system_of_mem_selectModifiedAfter
    {ts : List (String × TiddlerJson)} {b t : String}
    (h : t ∈ selectModifiedAfter ts b) : isSystemTitle t = false := by
  simp only [selectModifiedAfter, List.mem_map] at h
  obtain ⟨p, hp, rfl⟩ := h
  have h2 := (List.mem_filter.mp hp).2
  have := (Bool.and_eq_true _ _).mp h2
  simpa using this.2

/-- Every title reported deleted is non-system. -/
theorem not_system_of_mem_detectDeletions
    {ts : List (String × TiddlerJson)} {cur : Option (List String)} {t : String}
    (h : t ∈ detectDeletions ts cur) : isSystemTitle t = false := by
  cases cur with
  | none => simp [detectDeletions] at h
  | some cur =>
    simp only [detectDeletions] at h
    have h1 := (List.mem_filter.mp h).1
    have := (List.mem_filter.mp h1).2
    simpa using this

/-- A system title begins with `'$'`, hence is not the empty string. -/
theorem isSystemTitle_beq_empty_false {t : String}
    (h : isSystemTitle t = true) : (t == "") = false := by
  cases hb : t == ""
  · rfl
  · have : t = "" := by simpa using hb
    subst this
    simp [isSystemTitle, List.isPrefixOf] at h

/-- `_detect_deletions` computes exactly the spec's deleted set. -/
theorem detectDeletions_eq_spec (ts : List (String × TiddlerJson))
    (cur : Option (List String)) :
    detectDeletions ts cur = specDeletedSet ts cur := by
  cases cur <;> rfl

/-- The modified-since query computes exactly the spec's modified set for a
present baseline. -/
theorem selectModifiedAfter_eq_spec (ts : List (String × TiddlerJson))
    (b : String) : selectModifiedAfter ts b = specModifiedSet ts (some b) := by
  simp only [selectModifiedAfter, specModifiedSet]
  congr 1
  apply List.filter_congr
  intro p _
  cases p.2.modified <;> simp [Bool.and_comm]

/-- Zero-padded printing always yields exactly `w` characters. -/
theorem padDigits_length (w n : Nat) : (padDigits w n).length = w := by
  simp [padDigits]

/-- Zero-padded printing yields only decimal digit characters. -/
theorem padDigits_all_digit (w n : Nat) :
    (padDigits w n).all Char.isDigit = true := by
  simp only [padDigits, List.all_eq_true]
  intro c hc
  simp only [List.mem_map, List.mem_reverse, List.mem_range] at hc
  obtain ⟨i, _, rfl⟩ := hc
  have hd : n / 10 ^ i % 10 < 10 := Nat.mod_lt _ (by norm_num)
  set d := n / 10 ^ i % 10 with hdef
  clear_value d
  interval_cases d <;> decide

/-- Unpadded decimal printing yields only decimal digit characters. -/
theorem natDigitsAux_all_digit (fuel n : Nat) :
    (natDigitsAux fuel n).all Char.isDigit = true := by
  induction fuel generalizing n with
  | zero => rfl
  | succ fuel ih =>
    unfold natDigitsAux
    split
    next h =>
      interval_cases n <;> decide
    next h =>
      rw [List.all_append, ih]
      have hd : n % 10 < 10 := Nat.mod_lt _ (by norm_num)
      set d := n % 10 with hdef
      clear_value d
      interval_cases d <;> decide

/-- Unpadded decimal printing yields at least one character. -/
theorem natDecimalDigits_length_pos (n : Nat) :
    1 ≤ (natDecimalDigits n).length := by
  unfold natDecimalDigits natDigitsAux
  split
  · simp
  · simp

/-- A number below `10^k` prints as at most `k` unpadded digits. -/
theorem natDigitsAux_length_le (fuel n k : Nat) (hk : 1 ≤ k)
    (hn : n < 10 ^ k) : (natDigitsAux fuel n).length ≤ k := by
  induction fuel generalizing n k with
  | zero => simp [natDigitsAux]
  | succ fuel ih =>
    unfold natDigitsAux
    split
    next h => simpa using hk
    next h =>
      push_neg at h
      rw [List.length_append]
      have hk2 : 2 ≤ k := by
        by_contra hcon
        push_neg at hcon
        have hk1 : k = 1 := by omega
        subst hk1
        simp only [pow_one] at hn
        omega
      have hdiv : n / 10 < 10 ^ (k - 1) := by
        rw [Nat.div_lt_iff_lt_mul (by norm_num : (0 : Nat) < 10)]
        calc n < 10 ^ k := hn
        _ = 10 ^ (k - 1) * 10 := by
          rw [← pow_succ]
          congr 1
          omega
      have := ih (n / 10) (k - 1) (by omega) hdiv
      simp only [List.length_cons, List.length_nil]
      omega

/-- The formatted TiddlyWiki timestamp has thirteen characters after the
unpadded year. -/
theorem formatTwTimestamp_length (dt : PyDateTime) :
    (formatTwTimestamp dt).length = (natDecimalDigits dt.year).length + 13 := by
  simp only [formatTwTimestamp, String.length, List.length_append,
    padDigits_length]

/-- Every character of the formatted TiddlyWiki timestamp is a digit. -/
theorem formatTwTimestamp_all_digit (dt : PyDateTime) :
    (formatTwTimestamp dt).data.all Char.isDigit = true := by
  simp [formatTwTimestamp, List.all_append, padDigits_all_digit,
    natDecimalDigits, natDigitsAux_all_digit]

/-- The `datetime` constructor validation bounds the year. -/
theorem mkDateTime_year_le {y m d hh mm ss us : Nat} {dt : PyDateTime}
    (h : mkDateTime y m d hh mm ss us = some dt) : dt.year ≤ 9999 := by
  unfold mkDateTime at h
  split at h
  next hc =>
    cases h
    exact hc.2.1
  next hc => exact absurd h (by simp)

/-- Every successful `fromisoformat` parse yields a year of at most 9999
(it ends in the constructor validation). -/
theorem pyFromIso_year_le {s : String} {dt : PyDateTime}
    (h : pyFromIso s = some dt) : dt.year ≤ 9999 := by
  unfold pyFromIso at h
  split at h
  next => exact absurd h (by simp)
  next =>
    split at h
    next => exact absurd h (by simp)
    next =>
      split at h
      next => exact absurd h (by simp)
      next =>
        split at h
        next =>
          split at h
          next => exact absurd h (by simp)
          next => exact mkDateTime_year_le h
        next => exact mkDateTime_year_le h

/-- Revision bookkeeping: starting from current revision `c`, a sequence of
`_put_tiddler` calls on one title returns `c+1, c+2, ...`. -/
theorem putSequenceRevisions_from (ds : List TiddlerData) (rows : ServerState)
    (title : String) (c : Int) (h : getCurrentRevision rows title = c) :
    putSequenceRevisions rows title ds =
      (List.range ds.length).map (fun k : Nat => c + (k : Int) + 1) := by
  induction ds generalizing rows c with
  | nil => simp [putSequenceRevisions]
  | cons d ds ih =>
    have hrev : getCurrentRevision (sqlReplace rows title (putRow d (c + 1)))
        title = c + 1 := by
      simp [getCurrentRevision, sqlReplace, lookup_replace_eq, putRow]
    simp only [putSequenceRevisions, flaskPutTiddler, h]
    rw [ih _ _ hrev]
    rw [List.length_cons, List.range_succ_eq_map, List.map_cons, List.map_map]
    congr 1
    · simp
    · apply List.map_congr_left
      intro k _
      simp only [Function.comp_apply]
      push_cast
      ring

/-! ## Claim theorems -/

/-- Claim C10: tag normalization is the identity on strings and on `None`,
and applying `_convert_tags_to_string` to its own output (re-injected as a
Python value) gives the same result as applying it once, for every input
value. -/
theorem tagConversionIdempotent (x : Option TagsValue) (s : String) :
    convertTagsToString (some (TagsValue.str s)) = some s ∧
    convertTagsToString none = none ∧
    convertTagsToString (tagsResultAsValue (convertTagsToString x)) =
      convertTagsToString x := by
  refine ⟨rfl, rfl, ?_⟩
  cases x with
  | none => rfl
  | some v => cases v <;> rfl

/-- Claim C5 counterexample: the code wraps a tag only when it contains the
space character, so the tag `"a\tb"`, which contains the whitespace
character TAB, is not wrapped, while the claim's canonical form wraps every
tag containing any whitespace character. -/
theorem tagTabWhitespaceCounterexample :
    convertTagsToString (some (TagsValue.list ["a\tb"])) = some "a\tb" ∧
    "a\tb".data.any Char.isWhitespace = true ∧
    specTagsString ["a\tb"] = "[[a\tb]]" ∧
    convertTagsToString (some (TagsValue.list ["a\tb"])) ≠
      some (specTagsString ["a\tb"]) := by decide

/-- Claim C5 (amended): a list-valued tags entry is normalized to the tags
joined by single spaces with every tag containing a SPACE character
(U+0020, not arbitrary whitespace) wrapped in double square brackets; the
put path stores exactly the normalized string in the `tags` column, and
`["a b", "c"]` yields `"[[a b]] c"`. -/
theorem tagListNormalization (ts : List String) (d : TiddlerData) (rev : Int) :
    convertTagsToString (some (TagsValue.list ts)) =
      some (amendedTagsString ts) ∧
    (putRow d rev).tags = convertTagsToString d.tags ∧
    convertTagsToString (some (TagsValue.list ["a b", "c"])) =
      some "[[a b]] c" := by
  exact ⟨rfl, rfl, by decide⟩

/-- Claim C4 counterexample: a put with the empty title is not rejected:
`TiddlerStore.put_tiddler` returns `{"success": True}` and mutates the
store, persisting a record under the empty title, and the flask
`_put_tiddler` likewise assigns it revision 1. -/
theorem emptyTitlePutCounterexample :
    (storePutTiddler emptyStore "" sampleJson).1.success = true ∧
    (storePutTiddler emptyStore "" sampleJson).2 ≠ emptyStore ∧
    List.lookup "" (storePutTiddler emptyStore "" sampleJson).2.tiddlers =
      some sampleJson ∧
    (flaskPutTiddler [] "" emptyTiddlerData).1 = 1 := by decide

/-- Claim C4 (amended): `put` performs no validation of the title: every put
call, with any title including the empty one, succeeds (success result at
the local-call boundary, a fresh revision at the flask layer) and persists
the record under exactly the given title. -/
theorem putAcceptsAnyTitle (s : StoreState) (t : String) (j : TiddlerJson)
    (rows : ServerState) (d : TiddlerData) :
    (storePutTiddler s t j).1.success = true ∧
    List.lookup t (storePutTiddler s t j).2.tiddlers = some j ∧
    (flaskPutTiddler rows t d).1 = getCurrentRevision rows t + 1 ∧
    List.lookup t (flaskPutTiddler rows t d).2 =
      some (putRow d (getCurrentRevision rows t + 1)) := by
  refine ⟨rfl, ?_, rfl, ?_⟩
  · exact lookup_replace_eq s.tiddlers t j
  · simp only [flaskPutTiddler, sqlReplace]
    exact lookup_replace_eq rows t _

/-- Claim C3: baseline selection of the change-set resolver: with no
since-timestamp the Save Marker is the baseline; with neither, every
non-system title is modified (cold sync); otherwise the modified set is
exactly the non-system titles whose stored `modified` field is strictly
greater than the baseline under canonical (byte-wise) string comparison,
an incoming since-timestamp being converted to canonical form first. -/
theorem baselineSelection (s : StoreState) (since : Option String)
    (cur : Option (List String)) :
    (getUpdatedTiddlers s since cur).modifications =
      specModifiedSet s.tiddlers (specBaseline since (getLastHtmlSave s)) := by
  cases since with
  | some ts =>
    simp [getUpdatedTiddlers, specBaseline, selectModifiedAfter_eq_spec]
  | none =>
    cases hs : getLastHtmlSave s with
    | none =>
      simp [getUpdatedTiddlers, specBaseline, hs, specModifiedSet,
        selectNonSystemTitles]
    | some b =>
      simp [getUpdatedTiddlers, specBaseline, hs, selectModifiedAfter_eq_spec]

/-- Claim C2 counterexample: in the cold-sync case (no since-timestamp and
no Save Marker) the resolver returns an empty deletions list even when a
live-title list is supplied, while the claim's deleted set would report the
live title `"A"` that is absent from the store. -/
theorem coldSyncDeletionsCounterexample :
    (getUpdatedTiddlers emptyStore none (some ["A"])).deletions = [] ∧
    specDeletedSet emptyStore.tiddlers (some ["A"]) = ["A"] ∧
    (getUpdatedTiddlers emptyStore none (some ["A"])).deletions ≠
      specDeletedSet emptyStore.tiddlers (some ["A"]) := by decide

/-- Claim C2 (amended): whenever a baseline exists (a since-timestamp was
supplied, or a Save Marker is recorded) the deleted set is exactly the
supplied live titles, stripped of system-prefixed entries, minus the
non-system titles currently in the store — and empty when no live-title
list is supplied; but in the cold-sync case (no since-timestamp and no Save
Marker) the deletions list is empty regardless of the live-title list. -/
theorem deletedSetResolution (s : StoreState) (since : Option String)
    (cur : Option (List String)) :
    ((since ≠ none ∨ getLastHtmlSave s ≠ none) →
      (getUpdatedTiddlers s since cur).deletions =
        specDeletedSet s.tiddlers cur) ∧
    (since = none → getLastHtmlSave s = none →
      (getUpdatedTiddlers s since cur).deletions = []) := by
  constructor
  · intro h
    cases since with
    | some ts => simp [getUpdatedTiddlers, detectDeletions_eq_spec]
    | none =>
      cases hs : getLastHtmlSave s with
      | none =>
        rcases h with h | h
        · exact absurd rfl h
        · exact absurd hs h
      | some b => simp [getUpdatedTiddlers, hs, detectDeletions_eq_spec]
  · intro h1 h2
    subst h1
    simp [getUpdatedTiddlers, h2]

/-- Witness for `deletedSetResolution` at a concrete store with a recorded
Save Marker: the live title `"Beta"`, absent from the store, is reported
deleted. -/
theorem deletedSetResolutionCheck :
    (getUpdatedTiddlers markedStore none (some ["Alpha", "Beta"])).deletions =
      ["Beta"] := by
  have h := (deletedSetResolution markedStore none
    (some ["Alpha", "Beta"])).1 (Or.inr (by decide))
  rw [h]
  decide

/-- Claim C1: the n-th successful put on a title yields revision n:
`_put_tiddler` assigns revision = (current revision, default 0) + 1, so
starting from a title not yet in the table the returned revisions are
exactly 1, 2, ..., n (strictly increasing, no gaps), and the revision key
of the incoming tiddler data is ignored: the result of a put does not
depend on it. -/
theorem putRevisionIsCallIndex (rows : ServerState) (title : String)
    (ds : List TiddlerData) (d : TiddlerData) (rev : Option Int) :
    (List.lookup title rows = none →
      putSequenceRevisions rows title ds =
        (List.range ds.length).map (fun k : Nat => (k : Int) + 1)) ∧
    flaskPutTiddler rows title { d with revision := rev } =
      flaskPutTiddler rows title d := by
  constructor
  · intro h
    have h0 : getCurrentRevision rows title = 0 := by
      simp [getCurrentRevision, h]
    have hs := putSequenceRevisions_from ds rows title 0 h0
    simpa using hs
  · cases d
    rfl

/-- Witness for `putRevisionIsCallIndex`: three puts on a fresh title return
revisions 1, 2, 3. -/
theorem putRevisionIsCallIndexCheck :
    List.lookup "HelloThere" ([] : ServerState) = none ∧
    putSequenceRevisions [] "HelloThere"
      [emptyTiddlerData, emptyTiddlerData, emptyTiddlerData] = [1, 2, 3] := by
  refine ⟨rfl, ?_⟩
  have h := (putRevisionIsCallIndex [] "HelloThere"
    [emptyTiddlerData, emptyTiddlerData, emptyTiddlerData]
    emptyTiddlerData none).1 rfl
  rw [h]
  decide

/-- Claim C6: system-entry exclusion: a title with the reserved `$:/` marker
never appears in the resolver's modifications or deletions (for every store
state, baseline and live-title list), a row under such a title contributes
nothing to the skinny listing whatever its column values, yet the record
itself is persisted by put like any other tiddler. -/
theorem systemEntryExclusion (s : StoreState) (since : Option String)
    (cur : Option (List String)) (t : String) (r : Row) (rows : ServerState)
    (j : TiddlerJson) (h : isSystemTitle t = true) :
    t ∉ (getUpdatedTiddlers s since cur).modifications ∧
    t ∉ (getUpdatedTiddlers s since cur).deletions ∧
    getAllTiddlersFlat ((t, r) :: rows) = getAllTiddlersFlat rows ∧
    List.lookup t (storePutTiddler s t j).2.tiddlers = some j := by
  refine ⟨?_, ?_, ?_, ?_⟩
  · intro hm
    have hf : isSystemTitle t = false := by
      cases since with
      | some ts =>
        exact not_system_of_mem_selectModifiedAfter
          (by simpa [getUpdatedTiddlers] using hm)
      | none =>
        cases hs : getLastHtmlSave s with
        | none =>
          exact not_system_of_mem_selectNonSystemTitles
            (by simpa [getUpdatedTiddlers, hs] using hm)
        | some b =>
          exact not_system_of_mem_selectModifiedAfter
            (by simpa [getUpdatedTiddlers, hs] using hm)
    simp [h] at hf
  · intro hm
    have hf : isSystemTitle t = false := by
      cases since with
      | some ts =>
        exact not_system_of_mem_detectDeletions
          (by simpa [getUpdatedTiddlers] using hm)
      | none =>
        cases hs : getLastHtmlSave s with
        | none => simp [getUpdatedTiddlers, hs] at hm
        | some b =>
          exact not_system_of_mem_detectDeletions
            (by simpa [getUpdatedTiddlers, hs] using hm)
    simp [h] at hf
  · have hne := isSystemTitle_beq_empty_false h
    simp [getAllTiddlersFlat, hne, h]
  · simp only [storePutTiddler]
    exact lookup_replace_eq s.tiddlers t j

/-- Witness for `systemEntryExclusion` at the concrete system title
`$:/StoryList`: stored but invisible to sync and to the listing. -/
theorem systemEntryExclusionCheck :
    "$:/StoryList" ∉ (getUpdatedTiddlers emptyStore none none).modifications ∧
    getAllTiddlersFlat [("$:/StoryList", blankRow)] = [] ∧
    List.lookup "$:/StoryList"
      (storePutTiddler emptyStore "$:/StoryList" sampleJson).2.tiddlers =
      some sampleJson := by
  have h := systemEntryExclusion emptyStore none none "$:/StoryList" blankRow
    [] sampleJson (by decide)
  refine ⟨h.1, ?_, h.2.2.2⟩
  have h2 := h.2.2.1
  simpa using h2

/-- Claim C7 counterexample: in the skinny listing, the flattening loop
`tiddler[key] = val` overwrites top-level wire fields: with top-level
`modifier = "alice"` and extension field `modifier = "bob"`, the flattened
record carries `"bob"`, not the top-level `"alice"` the claim requires. -/
theorem fieldsCollisionCounterexample :
    collisionRow.modifier = some "alice" ∧
    collisionRow.fields = some [("modifier", "bob")] ∧
    getAllTiddlersFlat [("Note", collisionRow)] =
      [flattenRow "Note" collisionRow] ∧
    dictGet (flattenRow "Note" collisionRow) "modifier" =
      some (FlatValue.str "bob") ∧
    dictGet (flattenRow "Note" collisionRow) "modifier" ≠
      some (FlatValue.str "alice") := by decide

/-- Claim C7 (amended): in the skinny listing, structured extension fields
are flattened into the top-level namespace of each record and on a key
collision the flattened extension field takes precedence: for any key
present in the (duplicate-free) extension object, the flattened record
holds the extension object's value, regardless of the top-level column
value. -/
theorem flattenedFieldPrecedence (title : String) (r : Row)
    (fs : List (String × String)) (k v : String) (hf : r.fields = some fs)
    (hnd : (fs.map Prod.fst).Nodup) (hl : List.lookup k fs = some v) :
    dictGet (flattenRow title r) k = some (FlatValue.str v) := by
  simp only [flattenRow, hf]
  exact dictGet_foldAssign_lookup fs _ k v hnd hl

/-- Witness for `flattenedFieldPrecedence` at the concrete colliding row. -/
theorem flattenedFieldPrecedenceCheck :
    dictGet (flattenRow "Note" collisionRow) "modifier" =
      some (FlatValue.str "bob") :=
  flattenedFieldPrecedence "Note" collisionRow [("modifier", "bob")]
    "modifier" "bob" rfl (by decide) (by decide)

/-- Claim C8: delete is idempotent ensure-absent: `delete_tiddler` returns
true exactly when a record with the title existed, afterwards the title is
absent, deleting an absent title leaves the store unchanged (and raises
nothing: the model is total), and the wire `DELETE` route always answers
status 204. -/
theorem deleteEnsuresAbsent (s : StoreState) (t : String) (rows : ServerState) :
    ((storeDeleteTiddler s t).1 = true ↔ ∃ j, (t, j) ∈ s.tiddlers) ∧
    List.lookup t (storeDeleteTiddler s t).2.tiddlers = none ∧
    ((∀ j, (t, j) ∉ s.tiddlers) → (storeDeleteTiddler s t).2 = s) ∧
    (flaskDeleteRoute rows t).1 = 204 := by
  refine ⟨?_, ?_, ?_, rfl⟩
  · exact lookup_isSome_iff s.tiddlers t
  · exact lookup_remove_eq_none s.tiddlers t
  · intro hj
    simp only [storeDeleteTiddler]
    rw [filter_remove_of_not_mem s.tiddlers t hj]

/-- Witness for `deleteEnsuresAbsent`: deleting the absent title `"Beta"`
reports false, leaves the store unchanged, and the route answers 204. -/
theorem deleteEnsuresAbsentCheck :
    (storeDeleteTiddler markedStore "Beta").1 = false ∧
    (storeDeleteTiddler markedStore "Beta").2 = markedStore ∧
    (flaskDeleteRoute [] "Beta").1 = 204 := by
  refine ⟨by decide, ?_, (deleteEnsuresAbsent markedStore "Beta" []).2.2.2⟩
  apply (deleteEnsuresAbsent markedStore "Beta" []).2.2.1
  intro j hj
  simp [markedStore] at hj

/-- Claim C9 counterexample: on the input `0005-01-06T22:54:28.206Z` the
conversion succeeds but `strftime` prints the year 5 unpadded, so the
result `50106225428206` has 14 characters — neither the claimed 17-digit
canonical form nor the raw input unchanged. -/
theorem shortYearCounterexample :
    isoToTwTimestamp "0005-01-06T22:54:28.206Z" = "50106225428206" ∧
    (isoToTwTimestamp "0005-01-06T22:54:28.206Z").length = 14 ∧
    (isoToTwTimestamp "0005-01-06T22:54:28.206Z").length ≠ 17 ∧
    isoToTwTimestamp "0005-01-06T22:54:28.206Z" ≠
      "0005-01-06T22:54:28.206Z" := by decide

/-- Claim C9 (amended): the ISO-to-canonical conversion is total and never
raises: for every input string it returns either the `strftime`-formatted
conversion — a string of decimal digits whose length is thirteen plus the
number of decimal digits of the parsed year, hence between 14 and 17
characters, and 17 exactly for four-digit years, because `%Y` does not
zero-pad years below 1000 — or, on any conversion failure, the raw input
value unchanged; checked on the code's documented example and on an
unparseable input. -/
theorem isoConversionTotal :
    (∀ s : String,
      (∃ dt, pyFromIso ⟨replaceChar s.data 'Z' "+00:00".data⟩ = some dt ∧
        isoToTwTimestamp s = formatTwTimestamp dt ∧
        (isoToTwTimestamp s).data.all Char.isDigit = true ∧
        (isoToTwTimestamp s).length =
          (natDecimalDigits dt.year).length + 13 ∧
        14 ≤ (isoToTwTimestamp s).length ∧
        (isoToTwTimestamp s).length ≤ 17) ∨
      isoToTwTimestamp s = s) ∧
    isoToTwTimestamp "2026-01-06T22:54:28.206Z" = "20260106225428206" ∧
    isoToTwTimestamp "not-a-timestamp" = "not-a-timestamp" := by
  refine ⟨?_, by decide, by decide⟩
  intro s
  cases h : pyFromIso ⟨replaceChar s.data 'Z' "+00:00".data⟩ with
  | none =>
    right
    simp [isoToTwTimestamp, h]
  | some dt =>
    left
    refine ⟨dt, rfl, ?_, ?_, ?_, ?_, ?_⟩
    · simp [isoToTwTimestamp, h]
    · simp [isoToTwTimestamp, h, formatTwTimestamp_all_digit]
    · simp [isoToTwTimestamp, h, formatTwTimestamp_length]
    · rw [show isoToTwTimestamp s = formatTwTimestamp dt by
        simp [isoToTwTimestamp, h]]
      rw [formatTwTimestamp_length]
      have := natDecimalDigits_length_pos dt.year
      omega
    · rw [show isoToTwTimestamp s = formatTwTimestamp dt by
        simp [isoToTwTimestamp, h]]
      rw [formatTwTimestamp_length]
      have hy : dt.year ≤ 9999 := pyFromIso_year_le h
      have hlen : (natDecimalDigits dt.year).length ≤ 4 :=
        natDigitsAux_length_le (dt.year + 1) dt.year 4 (by norm_num)
          (by omega)
      omega
